import Mathlib

/-!
# Verification of `gff2_to_gff3.py`

A shallow embedding of the GFF2 → GFF3 converter and proofs of the
specified properties.  The program has three components:

* `convert_attributes` — translates a GFF2 attribute string into a GFF3
  `key=value;…` string, by scanning the input with the regular expression
  `(\S+?)\s*"([^"]*)"|(\S+?)=(\S+)` (Python `re.finditer` semantics).
* `parse_gff2` — parses the lines of one input file into
  `(seqid, min start, max end, strand, feature list)`.
* `write_gff3` — renders the output file lines: two directives, one
  synthetic `mRNA` line, one line per `CDS`/`exon` feature, and `###`.

Python exceptions are modelled by the `PyError` type and `Except`;
strings are processed at the `List Char` level so that every definition
is structurally recursive and evaluates inside the kernel.
-/

/-- Python `\s` (ASCII portion): the whitespace characters. -/
def pySpace (c : Char) : Bool :=
  c = ' ' || c = '\t' || c = '\n' || c = '\x0d' || c = '\x0b' || c = '\x0c'

/-- Characters matched by `\S` (non-whitespace). -/
def pyNonSpace (c : Char) : Bool := !(pySpace c)

/-! ## The attribute regex, `(\S+?)\s*"([^"]*)"|(\S+?)=(\S+)`

`finditer` repeatedly finds the leftmost match: at each start position the
first alternative is tried before the second; within an alternative the
lazy `\S+?` key grows one character at a time, each time checking whether
the rest of the alternative can complete.  `\s*` and `[^"]*` and the
trailing `\S+` are deterministic here (their greedy matches are forced by
the following literal, or nothing follows them). -/

/-- After an opening `"`: `[^"]*"` — the value runs to the next `"`.
Returns `(value, rest-after-closing-quote)`; `none` if no closing quote. -/
def scanQuoted : List Char → Option (List Char × List Char)
  | [] => none
  | c :: cs =>
    if c = '"' then some ([], cs)
    else
      match scanQuoted cs with
      | some (v, r) => some (c :: v, r)
      | none => none

/-- Completion of the first alternative for the current key: `\s*` skips
whitespace (its greedy match is forced, since a shorter one leaves a
whitespace character where `"` is required), then `"([^"]*)"`. -/
def alt1Complete (key rest : List Char) :
    Option (List Char × List Char × List Char) :=
  match rest.dropWhile pySpace with
  | '"' :: after =>
    match scanQuoted after with
    | some (v, r) => some (key.reverse, v, r)
    | none => none
  | _ => none

/-- First alternative `(\S+?)\s*"([^"]*)"`, with the key accumulated in
reverse in `key` (always nonempty).  At each key length: try to complete;
on failure extend the key by one non-space character (backtracking of the
lazy `\S+?`). -/
def alt1Go (key : List Char) : List Char → Option (List Char × List Char × List Char)
  | [] => alt1Complete key []
  | c :: cs =>
    match alt1Complete key (c :: cs) with
    | some m => some m
    | none => if pySpace c then none else alt1Go (c :: key) cs

/-- Try the first alternative at this position: the key needs at least one
non-space character. -/
def matchAlt1 : List Char → Option (List Char × List Char × List Char)
  | [] => none
  | c :: cs => if pySpace c then none else alt1Go [c] cs

/-- Second alternative `(\S+?)=(\S+)`: lazy key, literal `=`, greedy
nonempty value.  If the value would be empty the key is extended (it may
swallow `=` characters, which are non-space). -/
def alt2Go (key : List Char) : List Char → Option (List Char × List Char × List Char)
  | [] => none
  | c :: vs =>
    if c = '=' then
      if (vs.takeWhile pyNonSpace).isEmpty then alt2Go ('=' :: key) vs
      else some (key.reverse, vs.takeWhile pyNonSpace, vs.dropWhile pyNonSpace)
    else if pySpace c then none
    else alt2Go (c :: key) vs

/-- Try the second alternative at this position. -/
def matchAlt2 : List Char → Option (List Char × List Char × List Char)
  | [] => none
  | c :: cs => if pySpace c then none else alt2Go [c] cs

/-- Try a match of the whole pattern at this position: first alternative
first. -/
def matchHere (l : List Char) : Option (List Char × List Char × List Char) :=
  match matchAlt1 l with
  | some m => some m
  | none => matchAlt2 l

/-- `re.finditer`, fuelled (every match consumes at least one character, so
`fuel = length + 1` always suffices; see `finditerGo_fuel`). Advances one
position when no match starts here. -/
def finditerGo : Nat → List Char → List (List Char × List Char)
  | 0, _ => []
  | fuel + 1, l =>
    match matchHere l with
    | some (k, v, rest) => (k, v) :: finditerGo fuel rest
    | none =>
      match l with
      | [] => []
      | _ :: cs => finditerGo fuel cs

/-- All matches of the attribute pattern, left to right. -/
def finditer (l : List Char) : List (List Char × List Char) :=
  finditerGo (l.length + 1) l

/-- `';'.join(list)`. -/
def joinWith (sep : String) : List String → String
  | [] => ""
  | [x] => x
  | x :: y :: xs => x ++ sep ++ joinWith sep (y :: xs)

/-- `convert_attributes`: scan the GFF2 attribute string with the pattern,
render each match as `key=value`, join with `;`. -/
def convert_attributes (attr_str : String) : String :=
  let attrs := (finditer attr_str.data).map
    (fun kv => String.mk kv.1 ++ "=" ++ String.mk kv.2)
  joinWith ";" attrs

/-! ## Python primitives used by the parser -/

/-- Decimal digits of Python `int(str)` after sign removal: nonempty,
underscores allowed only singly and between digits.  `acc` is the value of
the digits already read. -/
def pyDigitsGo (acc : Nat) : List Char → Option Nat
  | [] => some acc
  | '_' :: c :: cs =>
    if c.isDigit then pyDigitsGo (acc * 10 + (c.toNat - '0'.toNat)) cs
    else none
  | c :: cs =>
    if c.isDigit then pyDigitsGo (acc * 10 + (c.toNat - '0'.toNat)) cs
    else none

/-- The digit part must start with a digit. -/
def pyDigits : List Char → Option Nat
  | [] => none
  | c :: cs => if c.isDigit then pyDigitsGo (c.toNat - '0'.toNat) cs else none

/-- Python `int(str)`: strip surrounding whitespace, optional sign, decimal
digits.  `none` models the `ValueError` raised on anything else. -/
def pyInt (s : String) : Option Int :=
  let l := ((s.data.dropWhile pySpace).reverse.dropWhile pySpace).reverse
  match l with
  | '+' :: ds => (pyDigits ds).map (fun n => (n : Int))
  | '-' :: ds => (pyDigits ds).map (fun n => -(n : Int))
  | ds => (pyDigits ds).map (fun n => (n : Int))

/-- Python `str.split(sep)` for a one-character separator: empty string
gives `[""]`, empty fields are kept. -/
def splitOnChar (sep : Char) : List Char → List (List Char)
  | [] => [[]]
  | c :: cs =>
    match splitOnChar sep cs with
    | [] => [[]]
    | g :: gs => if c = sep then [] :: g :: gs else (c :: g) :: gs

/-- Python `str.rstrip('\n')`: remove all trailing newline characters. -/
def rstripNl (s : String) : String :=
  String.mk (s.data.reverse.dropWhile (fun c => c = '\n')).reverse

/-- Python `str.startswith(p)`. -/
def pyStartsWith (s p : String) : Bool := p.data.isPrefixOf s.data

/-- The Python exceptions the converter can raise. -/
inductive PyError where
  /-- `ValueError` from `int()` on a non-integer field. -/
  | intValueError (field : String)
  /-- `ValueError: too many values to unpack` on a line with more than 9
  tab-separated columns. -/
  | unpackValueError
  /-- `ValueError: min() arg is an empty sequence` (or `max()`): the file
  had no accumulated coordinates. -/
  | emptySeqError
deriving DecidableEq, Repr

/-- Equality of modelled Python results is decidable, so witnesses can be
checked by evaluation. -/
instance exceptDecEq {ε α : Type} [DecidableEq ε] [DecidableEq α] :
    DecidableEq (Except ε α) := fun x y =>
  match x, y with
  | .ok a, .ok b =>
    match decEq a b with
    | isTrue h => isTrue (by rw [h])
    | isFalse h => isFalse (by intro hh; cases hh; exact h rfl)
  | .ok _, .error _ => isFalse (by intro h; cases h)
  | .error _, .ok _ => isFalse (by intro h; cases h)
  | .error e, .error f =>
    match decEq e f with
    | isTrue h => isTrue (by rw [h])
    | isFalse h => isFalse (by intro hh; cases hh; exact h rfl)

/-- One parsed feature record, as stored in the `features` list of
`parse_gff2`: `(ftype, s, e, score, strand, phase, attr_str3)`. -/
structure Feature where
  ftype : String
  fstart : Int
  fend : Int
  score : String
  strand : String
  phase : String
  attrs : String
deriving DecidableEq, Repr

/-- The loop state of `parse_gff2`: the accumulated feature list, the
`starts` and `ends` collections, and the last-seen `seqid`/`strand`
(initially Python `None`). -/
structure ParseState where
  features : List Feature
  starts : List Int
  ends : List Int
  seqid : Option String
  strand : Option String
deriving DecidableEq, Repr

/-- Initial state of the parsing loop. -/
def initState : ParseState :=
  { features := [], starts := [], ends := [], seqid := none, strand := none }

/-- The body of the `for line in fin` loop of `parse_gff2`:
comment/track lines are skipped, the line is split on tabs, fewer than 9
columns is skipped, more than 9 raises on unpacking, `start`/`end` must
parse as integers, and the state is extended. -/
def processLine (st : ParseState) (line : String) : Except PyError ParseState :=
  if pyStartsWith line "track" || pyStartsWith line "##" || pyStartsWith line "#" then
    .ok st
  else
    match (splitOnChar '\t' (rstripNl line).data).map String.mk with
    | [sid, _source, ftype, start, end_, score, sd, phase, attr_str] =>
      match pyInt start with
      | none => .error (.intValueError start)
      | some s =>
        match pyInt end_ with
        | none => .error (.intValueError end_)
        | some e =>
          .ok { features := st.features ++
                  [⟨ftype, s, e, score, sd, phase, convert_attributes attr_str⟩],
                starts := st.starts ++ [s],
                ends := st.ends ++ [e],
                seqid := some sid,
                strand := some sd }
    | cols =>
      if cols.length < 9 then .ok st else .error .unpackValueError

/-- Run the loop over all lines of the file, propagating the first
exception. -/
def parseLines (st : ParseState) : List String → Except PyError ParseState
  | [] => .ok st
  | line :: rest =>
    match processLine st line with
    | .ok st' => parseLines st' rest
    | .error e => .error e

/-- Python `min(list)`: raises on an empty list. -/
def pyMin : List Int → Except PyError Int
  | [] => .error .emptySeqError
  | x :: xs => .ok (xs.foldl min x)

/-- Python `max(list)`: raises on an empty list. -/
def pyMax : List Int → Except PyError Int
  | [] => .error .emptySeqError
  | x :: xs => .ok (xs.foldl max x)

/-- `parse_gff2`, over the list of input lines: returns
`(seqid, min(starts), max(ends), strand, features)` or the first raised
exception. -/
def parse_gff2 (lines : List String) :
    Except PyError (Option String × Int × Int × Option String × List Feature) :=
  match parseLines initState lines with
  | .error e => .error e
  | .ok st =>
    match pyMin st.starts with
    | .error e => .error e
    | .ok mn =>
      match pyMax st.ends with
      | .error e => .error e
      | .ok mx => .ok (st.seqid, mn, mx, st.strand, st.features)

/-! ## The GFF3 emitter -/

/-- Rendering of a value in a Python f-string: `None` prints as `"None"`,
a string prints as itself. -/
def pyStr : Option String → String
  | some s => s
  | none => "None"

/-- The `##gff-version 3` directive. -/
def versionLine : String := "##gff-version 3"

/-- The `##sequence-region` directive. -/
def regionLine (seqid : String) (start end_ : Int) : String :=
  "##sequence-region " ++ seqid ++ " " ++ toString start ++ " " ++ toString end_

/-- The attribute column of the synthetic `mRNA` line,
`ID={mrna_id};transcript_id={mrna_id}`. -/
def mrnaAttrs (mrna_id : String) : String :=
  "ID=" ++ mrna_id ++ ";transcript_id=" ++ mrna_id

/-- The synthetic `mRNA` line. -/
def mrnaLine (seqid : String) (start end_ : Int) (strand mrna_id : String) :
    String :=
  seqid ++ "\t.\tmRNA\t" ++ toString start ++ "\t" ++ toString end_ ++
    "\t.\t" ++ strand ++ "\t.\t" ++ mrnaAttrs mrna_id

/-- The attribute column of a child feature line,
`Parent={mrna_id};{attrs}`. -/
def childAttrs (mrna_id : String) (f : Feature) : String :=
  "Parent=" ++ mrna_id ++ ";" ++ f.attrs

/-- One child feature line (source fixed to `GEP`, `Parent` prepended to
the translated attributes). -/
def childLine (seqid mrna_id : String) (f : Feature) : String :=
  seqid ++ "\tGEP\t" ++ f.ftype ++ "\t" ++ toString f.fstart ++ "\t" ++
    toString f.fend ++ "\t" ++ f.score ++ "\t" ++ f.strand ++ "\t" ++
    f.phase ++ "\t" ++ childAttrs mrna_id f

/-- The body of the `for` loop of `write_gff3`: features whose type is not
`CDS` or `exon` are skipped with `continue`. -/
def childOpt (seqid mrna_id : String) (f : Feature) : Option String :=
  if f.ftype = "CDS" ∨ f.ftype = "exon" then some (childLine seqid mrna_id f)
  else none

/-- `write_gff3`, as the list of lines written to the output file. -/
def write_gff3 (base seqid : String) (start end_ : Int) (strand : String)
    (features : List Feature) : List String :=
  let mrna_id := base ++ "-PA"
  [versionLine, regionLine seqid start end_,
   mrnaLine seqid start end_ strand mrna_id] ++
    features.filterMap (childOpt seqid mrna_id) ++ ["###"]

/-- The per-file step of `main`: parse, then write.  An exception from
`parse_gff2` propagates and the output file is never opened, so no lines
are produced for that input. -/
def convertFile (base : String) (lines : List String) :
    Except PyError (List String) :=
  match parse_gff2 lines with
  | .error e => .error e
  | .ok (seqid, start, end_, strand, feats) =>
    .ok (write_gff3 base (pyStr seqid) start end_ (pyStr strand) feats)

/-! ## Helper lemmas

First: every successful match consumes at least one character, so
`finditer`'s fuel of `length + 1` is never exhausted and the scan is
fuel-independent. -/

theorem dropWhile_length_le (p : Char → Bool) :
    ∀ l : List Char, (l.dropWhile p).length ≤ l.length := by
  intro l
  induction l with
  | nil => simp [List.dropWhile]
  | cons c cs ih =>
    rw [List.dropWhile]
    by_cases h : p c = true
    · simp only [h]
      have := ih
      simp
      omega
    · simp only [h]
      simp

theorem scanQuoted_length {l v r : List Char}
    (h : scanQuoted l = some (v, r)) : r.length < l.length := by
  induction l generalizing v r with
  | nil => simp [scanQuoted] at h
  | cons c cs ih =>
    by_cases hc : c = '"'
    · subst hc
      simp [scanQuoted] at h
      obtain ⟨_, rfl⟩ := h
      simp
    · simp only [scanQuoted, if_neg hc] at h
      cases hsq : scanQuoted cs with
      | none => rw [hsq] at h; exact absurd h (by simp)
      | some p =>
        obtain ⟨v', r'⟩ := p
        rw [hsq] at h
        simp at h
        obtain ⟨_, rfl⟩ := h
        have := ih hsq
        simp
        omega


theorem alt1Complete_length {key rest k v r : List Char}
    (h : alt1Complete key rest = some (k, v, r)) : r.length < rest.length := by
  rw [alt1Complete] at h
  split at h
  · rename_i after hdrop
    split at h
    · rename_i v' r' hsq
      cases h
      have h1 := scanQuoted_length hsq
      have h2 := dropWhile_length_le pySpace rest
      rw [hdrop] at h2
      simp at h2
      omega
    · exact absurd h (by simp)
  · exact absurd h (by simp)

theorem alt1Go_length {rest : List Char} :
    ∀ {key k v r : List Char}, alt1Go key rest = some (k, v, r) →
      r.length ≤ rest.length := by
  induction rest with
  | nil =>
    intro key k v r h
    simp [alt1Go, alt1Complete, List.dropWhile] at h
  | cons c cs ih =>
    intro key k v r h
    rw [alt1Go] at h
    split at h
    · -- the key completed: value read by `scanQuoted`
      rename_i m hm
      cases h
      exact Nat.le_of_lt (alt1Complete_length hm)
    · -- the key was extended by `c`
      split at h
      · exact absurd h (by simp)
      · have := ih h
        simp
        omega

theorem alt2Go_length {rest : List Char} :
    ∀ {key k v r : List Char}, alt2Go key rest = some (k, v, r) →
      r.length ≤ rest.length := by
  induction rest with
  | nil => intro key k v r h; simp [alt2Go] at h
  | cons c vs ih =>
    intro key k v r h
    rw [alt2Go] at h
    split at h
    · -- `c = '='`: either the value completes or the key swallows `=`
      split at h
      · have := ih h
        simp
        omega
      · cases h
        have := dropWhile_length_le pyNonSpace vs
        simp
        omega
    · split at h
      · exact absurd h (by simp)
      · have := ih h
        simp
        omega

theorem matchHere_length {l k v r : List Char}
    (h : matchHere l = some (k, v, r)) : r.length < l.length := by
  rw [matchHere] at h
  split at h
  · rename_i m hm
    cases h
    cases l with
    | nil => simp [matchAlt1] at hm
    | cons c cs =>
      rw [matchAlt1] at hm
      split at hm
      · exact absurd hm (by simp)
      · have := alt1Go_length hm
        simp
        omega
  · cases l with
    | nil => simp [matchAlt2] at h
    | cons c cs =>
      rw [matchAlt2] at h
      split at h
      · exact absurd h (by simp)
      · have := alt2Go_length h
        simp
        omega

/-- The scan is fuel-independent once the fuel exceeds the input length:
the fuel of `finditer` is never exhausted. -/
theorem finditerGo_fuel :
    ∀ (fuel fuel' : Nat) (l : List Char), l.length < fuel → l.length < fuel' →
      finditerGo fuel l = finditerGo fuel' l := by
  intro fuel
  induction fuel with
  | zero => intro fuel' l h; omega
  | succ n ih =>
    intro fuel' l h h'
    cases fuel' with
    | zero => omega
    | succ m =>
      simp only [finditerGo]
      cases hm : matchHere l with
      | some t =>
        obtain ⟨k, v, rest⟩ := t
        have hlt := matchHere_length hm
        simp only
        rw [ih m rest (by omega) (by omega)]
      | none =>
        cases l with
        | nil => simp
        | cons c cs =>
          simp only
          have hcs : cs.length < n := by simp at h; omega
          have hcs' : cs.length < m := by simp at h'; omega
          rw [ih m cs hcs hcs']

/-! ## Specification of Python `min`/`max` over nonempty lists -/

theorem foldl_min_le {xs : List Int} :
    ∀ {a : Int}, xs.foldl min a ≤ a ∧ ∀ x ∈ xs, xs.foldl min a ≤ x := by
  induction xs with
  | nil => intro a; simp
  | cons y ys ih =>
    intro a
    rw [List.foldl_cons]
    refine ⟨le_trans ih.1 (min_le_left a y), ?_⟩
    intro x hx
    rcases List.mem_cons.mp hx with rfl | hx
    · exact le_trans ih.1 (min_le_right a x)
    · exact ih.2 x hx

theorem foldl_min_mem {xs : List Int} :
    ∀ {a : Int}, xs.foldl min a = a ∨ xs.foldl min a ∈ xs := by
  induction xs with
  | nil => intro a; simp
  | cons y ys ih =>
    intro a
    rw [List.foldl_cons]
    rcases @ih (min a y) with h | h
    · rcases min_choice a y with hc | hc
      · exact Or.inl (h.trans hc)
      · exact Or.inr (List.mem_cons.mpr (Or.inl (h.trans hc)))
    · exact Or.inr (List.mem_cons.mpr (Or.inr h))

theorem foldl_max_ge {xs : List Int} :
    ∀ {a : Int}, a ≤ xs.foldl max a ∧ ∀ x ∈ xs, x ≤ xs.foldl max a := by
  induction xs with
  | nil => intro a; simp
  | cons y ys ih =>
    intro a
    rw [List.foldl_cons]
    refine ⟨le_trans (le_max_left a y) ih.1, ?_⟩
    intro x hx
    rcases List.mem_cons.mp hx with rfl | hx
    · exact le_trans (le_max_right a x) ih.1
    · exact ih.2 x hx

theorem foldl_max_mem {xs : List Int} :
    ∀ {a : Int}, xs.foldl max a = a ∨ xs.foldl max a ∈ xs := by
  induction xs with
  | nil => intro a; simp
  | cons y ys ih =>
    intro a
    rw [List.foldl_cons]
    rcases @ih (max a y) with h | h
    · rcases max_choice a y with hc | hc
      · exact Or.inl (h.trans hc)
      · exact Or.inr (List.mem_cons.mpr (Or.inl (h.trans hc)))
    · exact Or.inr (List.mem_cons.mpr (Or.inr h))

/-- `min(l)` on a nonempty list returns an element that bounds the list
from below. -/
theorem pyMin_spec {l : List Int} {m : Int} (h : pyMin l = .ok m) :
    m ∈ l ∧ ∀ x ∈ l, m ≤ x := by
  cases l with
  | nil => simp [pyMin] at h
  | cons a xs =>
    simp only [pyMin, Except.ok.injEq] at h
    subst h
    constructor
    · rcases @foldl_min_mem xs a with h | h
      · exact List.mem_cons.mpr (Or.inl h)
      · exact List.mem_cons.mpr (Or.inr h)
    · intro x hx
      rcases List.mem_cons.mp hx with rfl | hx
      · exact foldl_min_le.1
      · exact foldl_min_le.2 x hx

/-- `max(l)` on a nonempty list returns an element that bounds the list
from above. -/
theorem pyMax_spec {l : List Int} {m : Int} (h : pyMax l = .ok m) :
    m ∈ l ∧ ∀ x ∈ l, x ≤ m := by
  cases l with
  | nil => simp [pyMax] at h
  | cons a xs =>
    simp only [pyMax, Except.ok.injEq] at h
    subst h
    constructor
    · rcases @foldl_max_mem xs a with h | h
      · exact List.mem_cons.mpr (Or.inl h)
      · exact List.mem_cons.mpr (Or.inr h)
    · intro x hx
      rcases List.mem_cons.mp hx with rfl | hx
      · exact foldl_max_ge.1
      · exact foldl_max_ge.2 x hx

/-! ## Lemmas about the parsing loop -/

/-- Invariant of the loop state: the `starts` and `ends` collections are
exactly the start/end coordinates of the accumulated features, in order. -/
def stateCoherent (st : ParseState) : Prop :=
  st.starts = st.features.map Feature.fstart ∧
    st.ends = st.features.map Feature.fend

theorem processLine_coherent {st st' : ParseState} {line : String}
    (hc : stateCoherent st) (h : processLine st line = .ok st') :
    stateCoherent st' := by
  rw [processLine] at h
  split at h
  · cases h; exact hc
  · split at h
    · -- exactly 9 columns: both collections and the feature list grow by one
      split at h
      · exact absurd h (by simp)
      · split at h
        · exact absurd h (by simp)
        · cases h
          refine ⟨?_, ?_⟩
          · simp [hc.1]
          · simp [hc.2]
    · split at h
      · cases h; exact hc
      · exact absurd h (by simp)

theorem parseLines_coherent :
    ∀ {lines : List String} {st st' : ParseState}, stateCoherent st →
      parseLines st lines = .ok st' → stateCoherent st' := by
  intro lines
  induction lines with
  | nil =>
    intro st st' hc h
    rw [parseLines] at h
    cases h
    exact hc
  | cons line rest ih =>
    intro st st' hc h
    rw [parseLines] at h
    split at h
    · exact ih (processLine_coherent hc (by assumption)) h
    · exact absurd h (by simp)

/-- Lines the parser skips silently: comment/track lines and lines that
split into fewer than 9 tab-separated columns. -/
def isSkippedLine (line : String) : Bool :=
  pyStartsWith line "track" || pyStartsWith line "##" || pyStartsWith line "#" ||
    decide ((splitOnChar '\t' (rstripNl line).data).length < 9)

theorem processLine_skip {line : String} (h : isSkippedLine line = true)
    (st : ParseState) : processLine st line = .ok st := by
  rw [processLine]
  rw [isSkippedLine] at h
  split
  · rfl
  · rename_i hnc
    simp only [Bool.or_eq_true, decide_eq_true_eq] at h hnc
    have hlen : (splitOnChar '\t' (rstripNl line).data).length < 9 := by
      rcases h with ((h | h) | h) | h
      · exact absurd (Or.inl (Or.inl h)) hnc
      · exact absurd (Or.inl (Or.inr h)) hnc
      · exact absurd (Or.inr h) hnc
      · exact h
    split
    · rename_i sid src ftype start end_ score sd phase attr heq
      have : (splitOnChar '\t' (rstripNl line).data).length = 9 := by
        have := congrArg List.length heq
        simpa using this
      omega
    · rename_i hne
      have : ((splitOnChar '\t' (rstripNl line).data).map String.mk).length < 9 := by
        simpa using hlen
      simp only [if_pos this]

theorem parseLines_append (xs ys : List String) :
    ∀ st, parseLines st (xs ++ ys) =
      match parseLines st xs with
      | .ok st' => parseLines st' ys
      | .error e => .error e := by
  induction xs with
  | nil => intro st; simp [parseLines]
  | cons x xs ih =>
    intro st
    rw [List.cons_append, parseLines, parseLines]
    cases processLine st x with
    | ok st' => exact ih st'
    | error e => rfl

/-- Inserting a silently-skipped line anywhere leaves the whole parsing
loop unchanged. -/
theorem parseLines_skip_insert {line : String} (h : isSkippedLine line = true)
    (xs ys : List String) :
    ∀ st, parseLines st (xs ++ line :: ys) = parseLines st (xs ++ ys) := by
  induction xs with
  | nil =>
    intro st
    rw [List.nil_append, List.nil_append, parseLines, processLine_skip h]
  | cons x xs ih =>
    intro st
    rw [List.cons_append, List.cons_append, parseLines, parseLines]
    cases processLine st x with
    | ok st' => exact ih st'
    | error e => rfl

/-- Shared dissection of a successful `parse_gff2`: the returned span is
the minimum of the accumulated starts and the maximum of the accumulated
ends, which are exactly the coordinates of the returned features. -/
theorem parse_gff2_ok_facts {lines : List String} {sid : Option String}
    {mn mx : Int} {sd : Option String} {feats : List Feature}
    (h : parse_gff2 lines = .ok (sid, mn, mx, sd, feats)) :
    (∃ f ∈ feats, f.fstart = mn) ∧ (∀ f ∈ feats, mn ≤ f.fstart) ∧
      (∃ f ∈ feats, f.fend = mx) ∧ (∀ f ∈ feats, f.fend ≤ mx) := by
  rw [parse_gff2] at h
  split at h
  · exact absurd h (by simp)
  · rename_i st hst
    split at h
    · exact absurd h (by simp)
    · rename_i mn' hmn
      split at h
      · exact absurd h (by simp)
      · rename_i mx' hmx
        simp only [Except.ok.injEq, Prod.mk.injEq] at h
        obtain ⟨rfl, rfl, rfl, rfl, rfl⟩ := h
        have hc : stateCoherent st :=
          parseLines_coherent ⟨rfl, rfl⟩ hst
        obtain ⟨hmem, hlb⟩ := pyMin_spec hmn
        obtain ⟨hmem', hub⟩ := pyMax_spec hmx
        rw [hc.1] at hmem hlb
        rw [hc.2] at hmem' hub
        refine ⟨?_, ?_, ?_, ?_⟩
        · obtain ⟨f, hf, hf'⟩ := List.mem_map.mp hmem
          exact ⟨f, hf, hf'⟩
        · intro f hf
          exact hlb _ (List.mem_map.mpr ⟨f, hf, rfl⟩)
        · obtain ⟨f, hf, hf'⟩ := List.mem_map.mp hmem'
          exact ⟨f, hf, hf'⟩
        · intro f hf
          exact hub _ (List.mem_map.mpr ⟨f, hf, rfl⟩)

/-- The emission loop keeps exactly the `CDS`/`exon` features, in order. -/
theorem filterMap_childOpt (seqid mid : String) (feats : List Feature) :
    feats.filterMap (childOpt seqid mid) =
      (feats.filter (fun f => f.ftype == "CDS" || f.ftype == "exon")).map
        (childLine seqid mid) := by
  induction feats with
  | nil => rfl
  | cons f fs ih =>
    rw [List.filterMap_cons, List.filter_cons]
    by_cases h : f.ftype = "CDS" ∨ f.ftype = "exon"
    · rw [childOpt, if_pos h]
      have hb : (f.ftype == "CDS" || f.ftype == "exon") = true := by
        rcases h with h | h <;> simp [h]
      rw [hb]
      simp [ih]
    · rw [childOpt, if_neg h]
      have hb : (f.ftype == "CDS" || f.ftype == "exon") = false := by
        push_neg at h
        simp [h.1, h.2]
      rw [hb]
      simp only [Bool.false_eq_true, if_false, ih]

/-! ## The claims -/

/-- **C1.** For every input file containing at least one valid 9-column
feature line (equivalently, whenever `parse_gff2` returns a span at all),
the span satisfies `spanStart = min` of all parsed start coordinates and
`spanEnd = max` of all parsed end coordinates, exactly: the minimum
(maximum) is attained by some feature and bounds every feature's start
(end) from below (above). -/
theorem parse_gff2_span_is_min_max
    (lines : List String) (sid : Option String) (mn mx : Int)
    (sd : Option String) (feats : List Feature)
    (h : parse_gff2 lines = .ok (sid, mn, mx, sd, feats)) :
    feats ≠ [] ∧
      (∃ f ∈ feats, f.fstart = mn) ∧ (∀ f ∈ feats, mn ≤ f.fstart) ∧
      (∃ f ∈ feats, f.fend = mx) ∧ (∀ f ∈ feats, f.fend ≤ mx) := by
  obtain ⟨h1, h2, h3, h4⟩ := parse_gff2_ok_facts h
  refine ⟨?_, h1, h2, h3, h4⟩
  obtain ⟨f, hf, -⟩ := h1
  exact List.ne_nil_of_mem hf

/-- Witness for C1: the two-feature file from the specification scenario,
with distinct coordinates so that the minimum and maximum come from
different lines. -/
theorem parse_gff2_span_is_min_max_witness :
    parse_gff2 ["chr1\tGEP\tCDS\t100\t200\t.\t+\t0\tgene_id \"G1\"",
        "chr1\tGEP\texon\t90\t150\t.\t+\t.\tgene_id \"G1\""] =
      .ok (some "chr1", 90, 200, some "+",
        [⟨"CDS", 100, 200, ".", "+", "0", "gene_id=G1"⟩,
         ⟨"exon", 90, 150, ".", "+", ".", "gene_id=G1"⟩]) ∧
    ([⟨"CDS", 100, 200, ".", "+", "0", "gene_id=G1"⟩,
      ⟨"exon", 90, 150, ".", "+", ".", "gene_id=G1"⟩] ≠ ([] : List Feature) ∧
      (∃ f ∈ [(⟨"CDS", 100, 200, ".", "+", "0", "gene_id=G1"⟩ : Feature),
          ⟨"exon", 90, 150, ".", "+", ".", "gene_id=G1"⟩], f.fstart = 90) ∧
      (∀ f ∈ [(⟨"CDS", 100, 200, ".", "+", "0", "gene_id=G1"⟩ : Feature),
          ⟨"exon", 90, 150, ".", "+", ".", "gene_id=G1"⟩], 90 ≤ f.fstart) ∧
      (∃ f ∈ [(⟨"CDS", 100, 200, ".", "+", "0", "gene_id=G1"⟩ : Feature),
          ⟨"exon", 90, 150, ".", "+", ".", "gene_id=G1"⟩], f.fend = 200) ∧
      (∀ f ∈ [(⟨"CDS", 100, 200, ".", "+", "0", "gene_id=G1"⟩ : Feature),
          ⟨"exon", 90, 150, ".", "+", ".", "gene_id=G1"⟩], f.fend ≤ 200)) :=
  ⟨by decide,
   parse_gff2_span_is_min_max
     ["chr1\tGEP\tCDS\t100\t200\t.\t+\t0\tgene_id \"G1\"",
      "chr1\tGEP\texon\t90\t150\t.\t+\t.\tgene_id \"G1\""]
     (some "chr1") 90 200 (some "+")
     [⟨"CDS", 100, 200, ".", "+", "0", "gene_id=G1"⟩,
      ⟨"exon", 90, 150, ".", "+", ".", "gene_id=G1"⟩]
     (by decide)⟩

/-- **C2.** The output of `write_gff3` is exactly the two directives, the
synthetic `mRNA` line, one child line per feature whose type is `CDS` or
`exon` (in input order), and the terminator: so every child line comes
from a `CDS`/`exon` feature, and a feature of any other type contributes
no line (`childOpt` returns `none` for it). -/
theorem write_gff3_children_only_cds_exon
    (base seqid : String) (start end_ : Int) (strand : String)
    (feats : List Feature) :
    write_gff3 base seqid start end_ strand feats =
      [versionLine, regionLine seqid start end_,
       mrnaLine seqid start end_ strand (base ++ "-PA")] ++
        ((feats.filter (fun f => f.ftype == "CDS" || f.ftype == "exon")).map
          (childLine seqid (base ++ "-PA"))) ++ ["###"] ∧
    (∀ l ∈ feats.filterMap (childOpt seqid (base ++ "-PA")),
      ∃ f ∈ feats, (f.ftype = "CDS" ∨ f.ftype = "exon") ∧
        l = childLine seqid (base ++ "-PA") f) ∧
    ∀ f : Feature, f.ftype ≠ "CDS" → f.ftype ≠ "exon" →
      childOpt seqid (base ++ "-PA") f = none := by
  refine ⟨?_, ?_, ?_⟩
  · rw [write_gff3, filterMap_childOpt]
  · intro l hl
    obtain ⟨f, hf, hfl⟩ := List.mem_filterMap.mp hl
    rw [childOpt] at hfl
    split at hfl
    · rename_i ht
      cases hfl
      exact ⟨f, hf, ht, rfl⟩
    · exact absurd hfl (by simp)
  · intro f h1 h2
    rw [childOpt, if_neg]
    rintro (h | h)
    · exact h1 h
    · exact h2 h

/-- Witness for C2: a `start_codon` feature produces no output line. -/
theorem write_gff3_children_only_cds_exon_witness :
    childOpt "chr1" ("gene1" ++ "-PA")
      ⟨"start_codon", 1, 3, ".", "+", "0", ""⟩ = none :=
  (write_gff3_children_only_cds_exon "gene1" "chr1" 1 3 "+" []).2.2
    ⟨"start_codon", 1, 3, ".", "+", "0", ""⟩ (by decide) (by decide)

/-- **C3.** The emitted `mRNA` line (third line of every output) carries
the attribute string `ID=<mid>;transcript_id=<mid>` with both values the
same identifier `mid = base ++ "-PA"`, and the attribute string of every
emitted child line begins with `Parent=<mid>` for that same identifier. -/
theorem mrna_id_and_parent_consistent
    (base seqid : String) (start end_ : Int) (strand : String)
    (feats : List Feature) :
    ∃ mid, mid = base ++ "-PA" ∧
      (write_gff3 base seqid start end_ strand feats)[2]? =
        some (mrnaLine seqid start end_ strand mid) ∧
      mrnaAttrs mid = "ID=" ++ mid ++ ";transcript_id=" ++ mid ∧
      ∀ l ∈ feats.filterMap (childOpt seqid mid),
        ∃ f ∈ feats, l = childLine seqid mid f ∧
          ("Parent=" ++ mid).data <+: (childAttrs mid f).data := by
  refine ⟨base ++ "-PA", rfl, ?_, rfl, ?_⟩
  · rw [write_gff3]
    simp
  · intro l hl
    obtain ⟨f, hf, hfl⟩ := List.mem_filterMap.mp hl
    rw [childOpt] at hfl
    split at hfl
    · cases hfl
      refine ⟨f, hf, rfl, ?_⟩
      rw [childAttrs]
      simp only [String.data_append]
      rw [List.append_assoc]
      exact List.prefix_append _ _
    · exact absurd hfl (by simp)

/-- Witness for C3: the `Parent=` prefix on a concrete child line. -/
theorem mrna_id_and_parent_consistent_witness :
    ("Parent=" ++ ("gene1" ++ "-PA")).data <+:
      (childAttrs ("gene1" ++ "-PA")
        ⟨"CDS", 100, 200, ".", "+", "0", "gene_id=G1"⟩).data := by
  obtain ⟨mid, hmid, -, -, h⟩ :=
    mrna_id_and_parent_consistent "gene1" "chr1" 100 200 "+"
      [⟨"CDS", 100, 200, ".", "+", "0", "gene_id=G1"⟩]
  subst hmid
  obtain ⟨f, hf, -, hpre⟩ :=
    h (childLine "chr1" ("gene1" ++ "-PA")
        ⟨"CDS", 100, 200, ".", "+", "0", "gene_id=G1"⟩)
      (by decide)
  rw [List.mem_singleton] at hf
  subst hf
  exact hpre

/-- **C4.** Attribute translation is order-preserving: for every input the
output is the matched `(key, value)` pairs rendered as `key=value` and
joined with `;` in left-to-right match order; in particular the two
matches of `gene_id "G1"; transcript_id "T1"` appear in that order and
yield `gene_id=G1;transcript_id=T1`. -/
theorem convert_attributes_order_preserving (s : String) :
    convert_attributes s =
      joinWith ";" ((finditer s.data).map
        (fun kv => String.mk kv.1 ++ "=" ++ String.mk kv.2)) ∧
    finditer ("gene_id \"G1\"; transcript_id \"T1\"").data =
      [("gene_id".data, "G1".data), ("transcript_id".data, "T1".data)] ∧
    convert_attributes "gene_id \"G1\"; transcript_id \"T1\"" =
      "gene_id=G1;transcript_id=T1" :=
  ⟨rfl, by decide, by decide⟩

/-- **C5.** `convert_attributes` is a total function (it never raises:
every input yields a result string); malformed or unmatched fragments are
silently omitted, the empty attribute string yields the empty output
string, and a key with an empty quoted value is emitted as `key=`. -/
theorem convert_attributes_total_edges :
    convert_attributes "" = "" ∧
    convert_attributes "key \"\"" = "key=" ∧
    convert_attributes "malformed !!! fragments" = "" ∧
    convert_attributes "junk gene_id \"G1\" 123" = "gene_id=G1" ∧
    convert_attributes "x \"unterminated" = "" :=
  ⟨rfl, by decide, by decide, by decide, by decide⟩

/-- **C6.** A line beginning with `#` (including `##`) or `track`, or one
with fewer than 9 tab-separated columns, is skipped without error: the
result of `parse_gff2` — seqid, strand, span and feature list alike — is
unchanged whether or not such a line is present anywhere in the input. -/
theorem skipped_lines_do_not_influence_result
    (line : String) (h : isSkippedLine line = true) (xs ys : List String) :
    parse_gff2 (xs ++ line :: ys) = parse_gff2 (xs ++ ys) := by
  rw [parse_gff2, parse_gff2, parseLines_skip_insert h]

/-- Witness for C6: a comment line, a track line and a short line inserted
in a one-feature file leave the parse unchanged. -/
theorem skipped_lines_do_not_influence_result_witness :
    (isSkippedLine "# comment" = true ∧ isSkippedLine "track x" = true ∧
      isSkippedLine "chr1\tshort" = true) ∧
    parse_gff2 ["# comment", "chr1\tGEP\tCDS\t100\t200\t.\t+\t0\tgene_id \"G1\""] =
      parse_gff2 ["chr1\tGEP\tCDS\t100\t200\t.\t+\t0\tgene_id \"G1\""] ∧
    parse_gff2 ["chr1\tGEP\tCDS\t100\t200\t.\t+\t0\tgene_id \"G1\"", "track x"] =
      parse_gff2 ["chr1\tGEP\tCDS\t100\t200\t.\t+\t0\tgene_id \"G1\""] ∧
    parse_gff2 ["chr1\tGEP\tCDS\t100\t200\t.\t+\t0\tgene_id \"G1\"", "chr1\tshort"] =
      parse_gff2 ["chr1\tGEP\tCDS\t100\t200\t.\t+\t0\tgene_id \"G1\""] :=
  ⟨⟨by decide, by decide, by decide⟩,
   skipped_lines_do_not_influence_result "# comment" (by decide) []
     ["chr1\tGEP\tCDS\t100\t200\t.\t+\t0\tgene_id \"G1\""],
   skipped_lines_do_not_influence_result "track x" (by decide)
     ["chr1\tGEP\tCDS\t100\t200\t.\t+\t0\tgene_id \"G1\""] [],
   skipped_lines_do_not_influence_result "chr1\tshort" (by decide)
     ["chr1\tGEP\tCDS\t100\t200\t.\t+\t0\tgene_id \"G1\""] []⟩

/-- **C7 (counterexample).** A file whose single valid 9-column feature
line has `start > end` parses successfully, and the aggregated span
violates `start <= end`: the parser never checks the per-record coordinate
order. -/
theorem span_wellordered_counterexample :
    parse_gff2 ["a\tb\tCDS\t200\t100\t.\t+\t0\tk \"v\""] =
      .ok (some "a", 200, 100, some "+",
        [⟨"CDS", 200, 100, ".", "+", "0", "k=v"⟩]) ∧
    ¬((200 : Int) ≤ (100 : Int)) := by decide

/-- **C7 (amended).** For every input whose valid feature records each
satisfy `start <= end`, the aggregated span satisfies `start <= end`
(the minimum of the starts is at most the maximum of the ends). -/
theorem span_wellordered_of_records_wellordered
    (lines : List String) (sid : Option String) (mn mx : Int)
    (sd : Option String) (feats : List Feature)
    (h : parse_gff2 lines = .ok (sid, mn, mx, sd, feats))
    (hrec : ∀ f ∈ feats, f.fstart ≤ f.fend) :
    mn ≤ mx := by
  obtain ⟨⟨f, hf, hmn⟩, -, -, hub⟩ := parse_gff2_ok_facts h
  calc mn = f.fstart := hmn.symm
    _ ≤ f.fend := hrec f hf
    _ ≤ mx := hub f hf

/-- Witness for the amended C7. -/
theorem span_wellordered_of_records_wellordered_witness :
    parse_gff2 ["chr1\tGEP\tCDS\t100\t200\t.\t+\t0\tgene_id \"G1\""] =
      .ok (some "chr1", 100, 200, some "+",
        [⟨"CDS", 100, 200, ".", "+", "0", "gene_id=G1"⟩]) ∧
    (∀ f ∈ [(⟨"CDS", 100, 200, ".", "+", "0", "gene_id=G1"⟩ : Feature)],
      f.fstart ≤ f.fend) ∧
    (100 : Int) ≤ 200 :=
  ⟨by decide, by decide,
   span_wellordered_of_records_wellordered
     ["chr1\tGEP\tCDS\t100\t200\t.\t+\t0\tgene_id \"G1\""]
     (some "chr1") 100 200 (some "+")
     [⟨"CDS", 100, 200, ".", "+", "0", "gene_id=G1"⟩]
     (by decide) (by decide)⟩

/-- **C8 (counterexample).** A file whose only line has 10 tab-separated
columns contains zero valid 9-column feature lines, yet `parse_gff2` fails
with the unpack `ValueError` from the 9-variable destructuring, not with
the empty-sequence error from `min()`/`max()`. -/
theorem empty_input_rangeerror_counterexample :
    (splitOnChar '\t'
        (rstripNl "a\tb\tc\t1\t2\t.\t+\t0\tk\textra").data).length ≠ 9 ∧
    parse_gff2 ["a\tb\tc\t1\t2\t.\t+\t0\tk\textra"] =
      .error .unpackValueError ∧
    parse_gff2 ["a\tb\tc\t1\t2\t.\t+\t0\tk\textra"] ≠
      .error .emptySeqError :=
  ⟨by decide, by decide, by decide⟩

/-- **C8 (amended).** For every input file in which every line is skipped
(comment/`track` lines and lines with fewer than 9 columns — so no
coordinate is ever accumulated), `parse_gff2` fails with the
empty-sequence `ValueError` raised by `min()` over the empty collection,
the error propagates through the per-file conversion, and no output lines
are produced for that input. -/
theorem empty_feature_set_fails
    (lines : List String) (h : ∀ l ∈ lines, isSkippedLine l = true)
    (base : String) :
    parse_gff2 lines = .error .emptySeqError ∧
    convertFile base lines = .error .emptySeqError := by
  have hpl : parseLines initState lines = .ok initState := by
    induction lines with
    | nil => rfl
    | cons x xs ih =>
      rw [parseLines, processLine_skip (h x (List.mem_cons_self x xs))]
      exact ih fun l hl => h l (List.mem_cons_of_mem x hl)
  have hp : parse_gff2 lines = .error .emptySeqError := by
    rw [parse_gff2, hpl]
    rfl
  exact ⟨hp, by rw [convertFile, hp]⟩

/-- Witness for the amended C8. -/
theorem empty_feature_set_fails_witness :
    (∀ l ∈ ["# header", "track name", "chr1\tshort"],
      isSkippedLine l = true) ∧
    parse_gff2 ["# header", "track name", "chr1\tshort"] =
      .error .emptySeqError ∧
    convertFile "gene1" ["# header", "track name", "chr1\tshort"] =
      .error .emptySeqError :=
  ⟨by decide,
   (empty_feature_set_fails ["# header", "track name", "chr1\tshort"]
     (by decide) "gene1").1,
   (empty_feature_set_fails ["# header", "track name", "chr1\tshort"]
     (by decide) "gene1").2⟩

/-- **C9.** For every 9-column line whose `start` or `end` field is not a
valid integer, `parse_gff2` fails with the `int()` parsing error for the
offending field; the error is the overall result (propagated, not
caught), so processing of the file aborts and the per-file conversion
produces nothing. -/
theorem bad_coordinate_aborts
    (xs ys : List String) (line : String)
    (sid src ftype start end_ score sd phase attr : String)
    (st : ParseState)
    (hnc : (pyStartsWith line "track" || pyStartsWith line "##" ||
      pyStartsWith line "#") = false)
    (hcols : (splitOnChar '\t' (rstripNl line).data).map String.mk =
      [sid, src, ftype, start, end_, score, sd, phase, attr])
    (hbad : pyInt start = none ∨ pyInt end_ = none)
    (hpre : parseLines initState xs = .ok st) :
    ∃ fld, pyInt fld = none ∧
      parse_gff2 (xs ++ line :: ys) = .error (.intValueError fld) ∧
      ∀ base, convertFile base (xs ++ line :: ys) =
        .error (.intValueError fld) := by
  have hline : ∃ fld, pyInt fld = none ∧
      processLine st line = .error (.intValueError fld) := by
    rw [processLine, if_neg (by rw [hnc]; exact Bool.false_ne_true), hcols]
    cases hstart : pyInt start with
    | none => exact ⟨start, hstart, by simp only [hstart]⟩
    | some s =>
      have hend : pyInt end_ = none := by
        rcases hbad with hb | hb
        · rw [hb] at hstart; cases hstart
        · exact hb
      exact ⟨end_, hend, by simp only [hstart, hend]⟩
  obtain ⟨fld, hfld, herr⟩ := hline
  have hparse : parse_gff2 (xs ++ line :: ys) = .error (.intValueError fld) := by
    rw [parse_gff2, parseLines_append, hpre]
    simp only [parseLines, herr]
  exact ⟨fld, hfld, hparse, fun base => by rw [convertFile, hparse]⟩

/-- Witness for C9: a 9-column line whose `start` field is `x1`. -/
theorem bad_coordinate_aborts_witness :
    ((pyStartsWith "a\tb\tc\tx1\t2\t.\t+\t0\tk" "track" ||
        pyStartsWith "a\tb\tc\tx1\t2\t.\t+\t0\tk" "##" ||
        pyStartsWith "a\tb\tc\tx1\t2\t.\t+\t0\tk" "#") = false ∧
      pyInt "x1" = none) ∧
    (∃ fld, pyInt fld = none ∧
      parse_gff2 ["a\tb\tc\tx1\t2\t.\t+\t0\tk"] =
        .error (.intValueError fld) ∧
      ∀ base, convertFile base ["a\tb\tc\tx1\t2\t.\t+\t0\tk"] =
        .error (.intValueError fld)) :=
  ⟨⟨by decide, by decide⟩,
   bad_coordinate_aborts [] [] "a\tb\tc\tx1\t2\t.\t+\t0\tk"
     "a" "b" "c" "x1" "2" "." "+" "0" "k" initState
     (by decide) (by decide) (Or.inl (by decide)) rfl⟩

/-- **C10.** A line with 10 tab-separated columns makes `parse_gff2` raise
the unpacking error, aborting the file: the silent-skip tolerance applies
only to lines with fewer than 9 columns (the same content truncated to 8
columns is skipped, leaving the empty-collection error instead). -/
theorem ten_column_line_unpack_error :
    10 ≤ (splitOnChar '\t'
        (rstripNl "a\tb\tc\t1\t2\t.\t+\t0\tk\textra").data).length ∧
    parse_gff2 ["a\tb\tc\t1\t2\t.\t+\t0\tk\textra"] =
      .error .unpackValueError ∧
    (splitOnChar '\t' (rstripNl "a\tb\tc\t1\t2\t.\t+\t0").data).length < 9 ∧
    parse_gff2 ["a\tb\tc\t1\t2\t.\t+\t0",
        "chr1\tGEP\tCDS\t100\t200\t.\t+\t0\tgene_id \"G1\""] =
      parse_gff2 ["chr1\tGEP\tCDS\t100\t200\t.\t+\t0\tgene_id \"G1\""] :=
  ⟨by decide, by decide, by decide, by decide⟩
